import Mathlib

/-!
Verification of the 2048 move engine in `src/index.tsx`.

The grid is a 4×4 matrix of natural numbers (0 = empty cell), embedded as
`List (List Nat)` with a well-formedness predicate `WF` (4 rows of length 4).
Every definition below is a direct translation of the corresponding
TypeScript function in `src/index.tsx`; JavaScript out-of-bounds array reads
that throw a `TypeError` are modelled with `Except`.
-/

namespace Game2048

/-- `TILE_COUNT` from `src/index.tsx`. -/
def TILE_COUNT : Nat := 4

/-- A grid row / the whole grid, as in the `number[][]` of the source. -/
abbrev Grid := List (List Nat)

/-- Well-formedness: a 4×4 grid (4 rows, each of length 4). -/
def WF (g : Grid) : Prop := g.length = TILE_COUNT ∧ ∀ row ∈ g, row.length = TILE_COUNT

instance : DecidablePred WF := fun g => by
  unfold WF; infer_instance

/-- `grid[r][c]` with the JavaScript convention that the grids handled by the
game logic are fully populated; reads are always in bounds when `WF` holds. -/
def cell (g : Grid) (r c : Nat) : Nat := (g.getD r []).getD c 0

/-- `grid[r][c] = v` (`List.set` is the identity out of bounds, which never
happens on the `WF` grids the source mutates). -/
def setCell (g : Grid) (r c v : Nat) : Grid := g.set r ((g.getD r []).set c v)

/-- The move direction type `Direction` of `src/index.tsx`. -/
inductive Direction where
  | up | down | left | right
deriving DecidableEq, Repr

/-- `const rotations = { 'up': 1, 'right': 2, 'down': 3, 'left': 0 }`. -/
def rotations : Direction → Nat
  | .up => 1
  | .right => 2
  | .down => 3
  | .left => 0

/-- One 90° rotation step of `rotate` in `move` (`src/index.tsx` lines
144–156): `newGrid[r][c] = g[TILE_COUNT - 1 - c][r]` for `r, c < 4`. -/
def rotateOnce (g : Grid) : Grid :=
  (List.range TILE_COUNT).map fun r =>
    (List.range TILE_COUNT).map fun c =>
      cell g (TILE_COUNT - 1 - c) r

/-- `rotate(grid, times)`: iterate `rotateOnce` `times` times. -/
def rotateN (g : Grid) : Nat → Grid
  | 0 => g
  | t + 1 => rotateN (rotateOnce g) t

/-- One rotation step with JavaScript error semantics: reading the row
`g[TILE_COUNT - 1 - c]` of an array shorter than 4 yields `undefined`, and the
subsequent element read `undefined[r]` throws a `TypeError` (modelled as
`Except.error ()`).  The very first access of the loop is `g[3][0]`, so any
input with fewer than 4 rows errors. -/
def rotateOnceE (g : Grid) : Except Unit Grid :=
  if TILE_COUNT ≤ g.length then Except.ok (rotateOnce g) else Except.error ()

/-- `rotate(grid, times)` with JavaScript error semantics; used by the
merged-cell tagging in `move` (line 173), which applies it to the 1-row array
`[[r, newRow.length - 1]]`. -/
def rotateE (g : Grid) : Nat → Except Unit Grid
  | 0 => Except.ok g
  | t + 1 => do
    let g' ← rotateOnceE g
    rotateE g' t

/-- Result of merging one (zero-filtered) row: the output row before padding,
the score contribution, and the doubled values produced by merges in scan
order. -/
structure MergeOut where
  list : List Nat
  score : Nat
  vals : List Nat
deriving DecidableEq, Repr

/-- The scan loop of `move` (`src/index.tsx` lines 165–179) on an already
zero-filtered row: merge the first of each adjacent equal pair into a doubled
tile, add the new value to the score, and skip the scan index past the merged
pair (`i++`), so a just-merged tile never merges again in the same move. -/
def mergeRow : List Nat → MergeOut
  | [] => ⟨[], 0, []⟩
  | [a] => ⟨[a], 0, []⟩
  | a :: b :: rest =>
    if a = b then
      let m := mergeRow rest
      ⟨a * 2 :: m.list, m.score + a * 2, a * 2 :: m.vals⟩
    else
      let m := mergeRow (b :: rest)
      ⟨a :: m.list, m.score, m.vals⟩

/-- One full row step of `move`: filter out zeros (compact left), merge, and
pad on the right with zeros back to width 4 (lines 163–181). -/
def slideRow (row : List Nat) : MergeOut :=
  let nz := row.filter fun c => c != 0
  let m := mergeRow nz
  ⟨m.list ++ List.replicate (TILE_COUNT - m.list.length) 0, m.score, m.vals⟩

/-- Result of the deterministic part of `move` (lines 158–188): the new grid,
`scoreToAdd`, the `moved` flag, and the merged values in row-major scan
order. -/
structure DetOut where
  grid : Grid
  score : Nat
  moved : Bool
  vals : List Nat
deriving Repr

/-- The deterministic slide-and-merge of `move` (`src/index.tsx` lines
158–188): rotate the grid so the move is a left move, process every row with
`slideRow`, compare each processed row with the rotated original to set
`moved`, and rotate back by `(4 - numRotations) % 4`. -/
def moveDet (d : Direction) (g : Grid) : DetOut :=
  let numR := rotations d
  let rotG := rotateN g numR
  let rows := rotG.map slideRow
  let newRot := rows.map (·.list)
  { grid := rotateN newRot ((4 - numR) % 4)
    score := (rows.map (·.score)).sum
    moved := decide (newRot ≠ rotG)
    vals := (rows.map (·.vals)).flatten }

/-- The empty-cell scan of `addRandomTile` (`src/index.tsx` lines 108–115),
in row-major order. -/
def emptyCells (g : Grid) : List (Nat × Nat) :=
  ((List.range TILE_COUNT).map fun r =>
    (List.range TILE_COUNT).filterMap fun c =>
      if cell g r c = 0 then some (r, c) else none).flatten

/-- `addRandomTile` (`src/index.tsx` lines 107–121) with the randomness made
explicit: `k` stands for `Math.floor(Math.random() * emptyCells.length)`
(always `< emptyCells.length`) and `two` for `Math.random() < 0.9`.  If there
is no empty cell the grid is returned unchanged. -/
def addRandomTile (g : Grid) (k : Nat) (two : Bool) : Grid :=
  let e := emptyCells g
  if 0 < e.length then
    let p := e.getD k (0, 0)
    setCell g p.1 p.2 (if two then 2 else 4)
  else g

/-- `checkGameOver` (`src/index.tsx` lines 206–215): the loop returns early
(game not over) on any empty cell or any equal down/right neighbour; the
grid is classified lost exactly when no cell triggers an early return. -/
def gameOverCheck (g : Grid) : Bool :=
  (List.range TILE_COUNT).all fun r =>
    (List.range TILE_COUNT).all fun c =>
      (cell g r c != 0)
      && (!(decide (r < TILE_COUNT - 1)) || (cell g r c != cell g (r + 1) c))
      && (!(decide (c < TILE_COUNT - 1)) || (cell g r c != cell g r (c + 1)))

/-- The game state touched by `move`: the grid held in `board`, `score`,
`bestScore`, `isWin` and `isGameOver`. -/
structure GameState where
  grid : Grid
  score : Nat
  best : Nat
  isWin : Bool
  isGameOver : Bool
deriving Repr, DecidableEq

/-- The full `move` callback (`src/index.tsx` lines 136–204), with the two
random draws of `addRandomTile` passed explicitly as `k` and `two`.

For a direction other than `left`, the first merge encountered evaluates
`rotate([[r, newRow.length - 1]], (4 - numRotations) % 4)`, whose first array
access `g[3][0]` throws a `TypeError` (see `rotateOnceE`); the exception
aborts `move`, losing every queued change except the `setIsWin(true)` already
issued for that first merge if its value is exactly 2048.  This is modelled
as `Except.error w` where `w` is the value of `isWin` after the aborted call.
A completed call is `Except.ok` of the new state: `setIsWin(true)` fires on
any merge of value exactly 2048, and `checkGameOver` only ever sets
`isGameOver` to `true`. -/
def moveFull (d : Direction) (st : GameState) (k : Nat) (two : Bool) :
    Except Bool GameState :=
  if st.isGameOver && !st.isWin then Except.ok st
  else
    let det := moveDet d st.grid
    if (4 - rotations d) % 4 ≠ 0 ∧ det.vals ≠ [] then
      Except.error (st.isWin || (det.vals.headD 0 == 2048))
    else if det.moved then
      let g2 := addRandomTile det.grid k two
      let newScore := st.score + det.score
      Except.ok
        { grid := g2
          score := newScore
          best := if st.best < newScore then newScore else st.best
          isWin := st.isWin || det.vals.contains 2048
          isGameOver := st.isGameOver || gameOverCheck g2 }
    else
      Except.ok { st with isWin := st.isWin || det.vals.contains 2048 }

/-- Models the JavaScript `parseInt` builtin restricted to base-10 string
inputs as used at `src/index.tsx` line 62: skip leading whitespace, read an
optional sign, then the longest prefix of decimal digits; if that prefix is
empty the result is `NaN`, modelled as `none`.  (The `0x` radix prefix of
`parseInt` is irrelevant to the call site and not modelled.) -/
def jsParseInt (s : String) : Option Int :=
  let cs := s.toList.dropWhile fun ch => ch = ' ' ∨ ch = '\t' ∨ ch = '\n' ∨ ch = '\r'
  let signed : Int × List Char :=
    match cs with
    | '-' :: t => (-1, t)
    | '+' :: t => (1, t)
    | t => (1, t)
  let digits := signed.2.takeWhile Char.isDigit
  if digits = [] then none
  else some (signed.1 * (digits.foldl (fun a c => 10 * a + (c.toNat - '0'.toNat)) 0 : Nat))

/-- The best-score initialiser `parseInt(localStorage.getItem(BEST_SCORE_KEY)
|| '0')` (`src/index.tsx` line 62): `localStorage.getItem` returns the stored
string or `null`; both `null` and the empty string are falsy, so they are
replaced by `'0'` before parsing.  `none` models a `NaN` result. -/
def initBestScore (stored : Option String) : Option Int :=
  jsParseInt (match stored with
    | none => "0"
    | some s => if s = "" then "0" else s)

instance {ε α : Type} [DecidableEq ε] [DecidableEq α] :
    DecidableEq (Except ε α) := fun a b =>
  match a, b with
  | .ok x, .ok y =>
    if h : x = y then isTrue (by rw [h])
    else isFalse (fun hc => h (Except.ok.inj hc))
  | .error x, .error y =>
    if h : x = y then isTrue (by rw [h])
    else isFalse (fun hc => h (Except.error.inj hc))
  | .ok _, .error _ => isFalse (fun hc => Except.noConfusion hc)
  | .error _, .ok _ => isFalse (fun hc => Except.noConfusion hc)

/-- The rows written back by the row loop, in the rotated frame. -/
def newRows (d : Direction) (g : Grid) : Grid :=
  ((rotateN g (rotations d)).map slideRow).map (·.list)

/-! ### Row-level lemmas about `mergeRow` and `slideRow` -/

theorem mergeRow_cons_eq (a : Nat) (rest : List Nat) :
    mergeRow (a :: a :: rest) =
      ⟨a * 2 :: (mergeRow rest).list, (mergeRow rest).score + a * 2,
        a * 2 :: (mergeRow rest).vals⟩ := by
  simp [mergeRow]

theorem mergeRow_cons_ne (a b : Nat) (rest : List Nat) (h : a ≠ b) :
    mergeRow (a :: b :: rest) =
      ⟨a :: (mergeRow (b :: rest)).list, (mergeRow (b :: rest)).score,
        (mergeRow (b :: rest)).vals⟩ := by
  simp [mergeRow, h]

theorem mergeRow_length_le (l : List Nat) : (mergeRow l).list.length ≤ l.length := by
  induction l using mergeRow.induct with
  | case1 => simp [mergeRow]
  | case2 a => simp [mergeRow]
  | case3 b rest ih =>
    simp only [mergeRow_cons_eq, List.length_cons]
    omega
  | case4 a b rest h ih =>
    simp only [mergeRow_cons_ne a b rest h, List.length_cons]
    simpa using ih

theorem mergeRow_list_nonzero (l : List Nat) (h : ∀ x ∈ l, x ≠ 0) :
    ∀ x ∈ (mergeRow l).list, x ≠ 0 := by
  induction l using mergeRow.induct with
  | case1 => simp [mergeRow]
  | case2 a => simpa [mergeRow] using h
  | case3 b rest ih =>
    simp only [mergeRow_cons_eq, List.mem_cons]
    rintro x (rfl | hx)
    · have := h b (by simp)
      omega
    · exact ih (fun y hy => h y (by simp [hy])) x hx
  | case4 a b rest h' ih =>
    simp only [mergeRow_cons_ne a b rest h', List.mem_cons]
    rintro x (rfl | hx)
    · exact h x (by simp)
    · exact ih (fun y hy => h y (List.mem_cons_of_mem a hy)) x hx

theorem mergeRow_vals_nonzero (l : List Nat) (h : ∀ x ∈ l, x ≠ 0) :
    ∀ v ∈ (mergeRow l).vals, v ≠ 0 := by
  induction l using mergeRow.induct with
  | case1 => simp [mergeRow]
  | case2 a => simp [mergeRow]
  | case3 b rest ih =>
    simp only [mergeRow_cons_eq, List.mem_cons]
    rintro v (rfl | hv)
    · have := h b (by simp)
      omega
    · exact ih (fun y hy => h y (by simp [hy])) v hv
  | case4 a b rest h' ih =>
    simp only [mergeRow_cons_ne a b rest h']
    exact ih (fun y hy => h y (List.mem_cons_of_mem a hy))

theorem mergeRow_score_eq_sum (l : List Nat) :
    (mergeRow l).score = (mergeRow l).vals.sum := by
  induction l using mergeRow.induct with
  | case1 => simp [mergeRow]
  | case2 a => simp [mergeRow]
  | case3 b rest ih => simp only [mergeRow_cons_eq, List.sum_cons]; omega
  | case4 a b rest h ih => simpa only [mergeRow_cons_ne a b rest h] using ih

theorem mergeRow_vals_nil (l : List Nat) (h : (mergeRow l).vals = []) :
    (mergeRow l).list = l := by
  induction l using mergeRow.induct with
  | case1 => simp [mergeRow]
  | case2 a => simp [mergeRow]
  | case3 b rest ih => simp [mergeRow_cons_eq] at h
  | case4 a b rest h' ih =>
    simp only [mergeRow_cons_ne a b rest h'] at h ⊢
    rw [ih h]

theorem mergeRow_vals_ne_nil (l : List Nat) (h : (mergeRow l).vals ≠ []) :
    (mergeRow l).list.length < l.length := by
  induction l using mergeRow.induct with
  | case1 => simp [mergeRow] at h
  | case2 a => simp [mergeRow] at h
  | case3 b rest ih =>
    simp only [mergeRow_cons_eq, List.length_cons]
    have := mergeRow_length_le rest
    omega
  | case4 a b rest h' ih =>
    simp only [mergeRow_cons_ne a b rest h'] at h ⊢
    have := ih h
    simp only [List.length_cons] at this ⊢
    omega

theorem filter_append_replicate_zero (m : List Nat) (h : ∀ x ∈ m, x ≠ 0) (k : Nat) :
    (m ++ List.replicate k 0).filter (fun c => c != 0) = m := by
  rw [List.filter_append]
  have h1 : m.filter (fun c => c != 0) = m :=
    List.filter_eq_self.mpr fun a ha => by simpa using h a ha
  have h2 : (List.replicate k 0).filter (fun c : Nat => c != 0) = [] := by
    apply List.filter_eq_nil_iff.mpr
    intro a ha
    simp [List.eq_of_mem_replicate ha]
  rw [h1, h2, List.append_nil]

theorem slideRow_list_def (row : List Nat) :
    (slideRow row).list =
      (mergeRow (row.filter (fun c => c != 0))).list ++
        List.replicate (TILE_COUNT - (mergeRow (row.filter (fun c => c != 0))).list.length) 0 :=
  rfl

theorem filter_nonzero_mem (row : List Nat) :
    ∀ x ∈ row.filter (fun c => c != 0), x ≠ 0 := by
  intro x hx
  simpa using (List.mem_filter.mp hx).2

theorem slideRow_length (row : List Nat) (h : row.length = TILE_COUNT) :
    (slideRow row).list.length = TILE_COUNT := by
  have h1 : (mergeRow (row.filter (fun c => c != 0))).list.length ≤ TILE_COUNT := by
    have := mergeRow_length_le (row.filter (fun c => c != 0))
    have := List.length_filter_le (fun c : Nat => c != 0) row
    omega
  simp only [slideRow, List.length_append, List.length_replicate]
  omega

theorem slideRow_fix (row : List Nat) (h : (slideRow row).list = row) :
    (slideRow row).vals = [] ∧ (slideRow row).score = 0 := by
  set nz := row.filter (fun c => c != 0) with hnz
  have hnz0 : ∀ x ∈ nz, x ≠ 0 := filter_nonzero_mem row
  have hm0 : ∀ x ∈ (mergeRow nz).list, x ≠ 0 := mergeRow_list_nonzero nz hnz0
  have hvals : (slideRow row).vals = [] := by
    by_contra hne
    have hlt : (mergeRow nz).list.length < nz.length := mergeRow_vals_ne_nil nz hne
    have : row.filter (fun c => c != 0) = (mergeRow nz).list := by
      conv_lhs => rw [← h]
      rw [slideRow_list_def row]
      exact filter_append_replicate_zero _ hm0 _
    rw [← hnz] at this
    have := congrArg List.length this
    omega
  refine ⟨hvals, ?_⟩
  rw [show (slideRow row).score = (mergeRow nz).score from rfl, mergeRow_score_eq_sum,
    show (mergeRow nz).vals = (slideRow row).vals from rfl, hvals, List.sum_nil]

theorem slideRow_ne_mem_zero (row : List Nat) (h4 : row.length = TILE_COUNT)
    (h : (slideRow row).list ≠ row) : 0 ∈ (slideRow row).list := by
  set nz := row.filter (fun c => c != 0) with hnz
  by_cases hl : (mergeRow nz).list.length < TILE_COUNT
  · rw [slideRow_list_def row, ← hnz]
    have : TILE_COUNT - (mergeRow nz).list.length ≠ 0 := by omega
    refine List.mem_append.mpr (Or.inr ?_)
    exact List.mem_replicate.mpr ⟨this, rfl⟩
  · exfalso
    have hle1 : (mergeRow nz).list.length ≤ nz.length := mergeRow_length_le nz
    have hle2 : nz.length ≤ row.length := by
      rw [hnz]; exact List.length_filter_le _ row
    have hlen : (mergeRow nz).list.length = nz.length ∧ nz.length = row.length := by omega
    have hnzrow : nz = row :=
      (List.filter_sublist row).eq_of_length (by rw [← hnz]; omega)
    have hvals : (mergeRow nz).vals = [] := by
      by_contra hne
      have := mergeRow_vals_ne_nil nz hne
      omega
    have hlist : (mergeRow nz).list = nz := mergeRow_vals_nil nz hvals
    apply h
    rw [slideRow_list_def row, ← hnz, hlist, hnzrow, h4]
    simp

theorem slideRow_twice (row : List Nat)
    (h : (slideRow (slideRow row).list).score = 0) :
    (slideRow (slideRow row).list).list = (slideRow row).list := by
  set nz := row.filter (fun c => c != 0) with hnz
  set m := (mergeRow nz).list with hm
  have hm0 : ∀ x ∈ m, x ≠ 0 := mergeRow_list_nonzero nz (filter_nonzero_mem row)
  have hfix : (slideRow row).list.filter (fun c => c != 0) = m := by
    rw [slideRow_list_def row, ← hnz, ← hm]
    exact filter_append_replicate_zero m hm0 _
  have hscore : (mergeRow m).score = 0 := by
    rw [show (slideRow (slideRow row).list).score
        = (mergeRow ((slideRow row).list.filter (fun c => c != 0))).score from rfl, hfix] at h
    exact h
  have hvals : (mergeRow m).vals = [] := by
    have hsum : (mergeRow m).vals.sum = 0 := by
      rw [← mergeRow_score_eq_sum]; exact hscore
    have hvnz := mergeRow_vals_nonzero m hm0
    rcases hv : (mergeRow m).vals with _ | ⟨v, vs⟩
    · rfl
    · exfalso
      rw [hv] at hsum
      simp only [List.sum_cons] at hsum
      exact hvnz v (by rw [hv]; simp) (by omega)
  have hlist : (mergeRow m).list = m := mergeRow_vals_nil m hvals
  rw [slideRow_list_def (slideRow row).list, hfix, hlist, slideRow_list_def row, ← hnz, ← hm]

/-! ### Small list-access lemmas -/

theorem getD_mem {α : Type} (l : List α) (n : Nat) (d : α) (h : n < l.length) :
    l.getD n d ∈ l := by
  induction l generalizing n with
  | nil => simp at h
  | cons a t ih =>
    cases n with
    | zero => simp [List.getD]
    | succ m =>
      simp only [List.getD_cons_succ]
      exact List.mem_cons_of_mem a (ih m (by simpa using h))

theorem mem_getD {α : Type} (l : List α) (x d : α) (h : x ∈ l) :
    ∃ n, n < l.length ∧ l.getD n d = x := by
  induction l with
  | nil => simp at h
  | cons a t ih =>
    rcases List.mem_cons.mp h with rfl | hx
    · exact ⟨0, by simp, by simp [List.getD]⟩
    · obtain ⟨n, hn, he⟩ := ih hx
      exact ⟨n + 1, by simpa using hn, by simpa [List.getD_cons_succ] using he⟩

theorem getD_set_self {α : Type} (l : List α) (i : Nat) (a d : α) (h : i < l.length) :
    (l.set i a).getD i d = a := by
  induction l generalizing i with
  | nil => simp at h
  | cons x t ih =>
    cases i with
    | zero => simp [List.getD]
    | succ m => simpa [List.getD_cons_succ] using ih m (by simpa using h)

theorem getD_set_ne {α : Type} (l : List α) (i j : Nat) (a d : α) (h : i ≠ j) :
    (l.set i a).getD j d = l.getD j d := by
  induction l generalizing i j with
  | nil => simp
  | cons x t ih =>
    cases i with
    | zero =>
      cases j with
      | zero => exact absurd rfl h
      | succ m => simp [List.getD_cons_succ]
    | succ n =>
      cases j with
      | zero => simp [List.getD]
      | succ m => simpa [List.getD_cons_succ] using ih n m (by omega)

/-! ### Rotation lemmas -/

theorem row_destruct (row : List Nat) (h : row.length = TILE_COUNT) :
    ∃ a b c d, row = [a, b, c, d] := by
  match row, h with
  | [a, b, c, d], _ => exact ⟨a, b, c, d, rfl⟩

theorem WF_destruct (g : Grid) (h : WF g) :
    ∃ r0 r1 r2 r3, g = [r0, r1, r2, r3] ∧
      r0.length = TILE_COUNT ∧ r1.length = TILE_COUNT ∧
      r2.length = TILE_COUNT ∧ r3.length = TILE_COUNT := by
  obtain ⟨hlen, hrows⟩ := h
  match g, hlen with
  | [r0, r1, r2, r3], _ =>
    exact ⟨r0, r1, r2, r3, rfl, hrows r0 (by simp), hrows r1 (by simp),
      hrows r2 (by simp), hrows r3 (by simp)⟩

theorem WF_cells (g : Grid) (h : WF g) :
    ∃ a b c d e f i j k l m n o p q s,
      g = [[a, b, c, d], [e, f, i, j], [k, l, m, n], [o, p, q, s]] := by
  obtain ⟨r0, r1, r2, r3, rfl, h0, h1, h2, h3⟩ := WF_destruct g h
  obtain ⟨a, b, c, d, rfl⟩ := row_destruct r0 h0
  obtain ⟨e, f, i, j, rfl⟩ := row_destruct r1 h1
  obtain ⟨k, l, m, n, rfl⟩ := row_destruct r2 h2
  obtain ⟨o, p, q, s, rfl⟩ := row_destruct r3 h3
  exact ⟨a, b, c, d, e, f, i, j, k, l, m, n, o, p, q, s, rfl⟩

theorem rotateOnce_lit (a b c d e f i j k l m n o p q s : Nat) :
    rotateOnce [[a, b, c, d], [e, f, i, j], [k, l, m, n], [o, p, q, s]] =
      [[o, k, e, a], [p, l, f, b], [q, m, i, c], [s, n, j, d]] := rfl

theorem rotateOnce_WF (g : Grid) : WF (rotateOnce g) := by
  refine ⟨by simp [rotateOnce, TILE_COUNT], ?_⟩
  intro row hrow
  simp only [rotateOnce] at hrow
  obtain ⟨r, _, rfl⟩ := List.mem_map.mp hrow
  simp [TILE_COUNT]

theorem rotateN_WF (g : Grid) (h : WF g) (t : Nat) : WF (rotateN g t) := by
  induction t generalizing g with
  | zero => exact h
  | succ t ih => exact ih (rotateOnce g) (rotateOnce_WF g)

theorem rotateOnce_four (g : Grid) (h : WF g) :
    rotateOnce (rotateOnce (rotateOnce (rotateOnce g))) = g := by
  obtain ⟨a, b, c, d, e, f, i, j, k, l, m, n, o, p, q, s, rfl⟩ := WF_cells g h
  simp only [rotateOnce_lit]

theorem rotateN_add (g : Grid) (a b : Nat) :
    rotateN (rotateN g a) b = rotateN g (a + b) := by
  induction a generalizing g with
  | zero => rw [Nat.zero_add]; rfl
  | succ t ih =>
    rw [show t + 1 + b = (t + b) + 1 by omega]
    show rotateN (rotateN (rotateOnce g) t) b = rotateN (rotateOnce g) (t + b)
    exact ih (rotateOnce g)

theorem rotateN_four (g : Grid) (h : WF g) : rotateN g 4 = g := by
  show rotateN (rotateOnce (rotateOnce (rotateOnce (rotateOnce g)))) 0 = g
  exact rotateOnce_four g h

theorem rotateOnce_flatten_zero (g : Grid) (h : WF g) :
    0 ∈ (rotateOnce g).flatten ↔ 0 ∈ g.flatten := by
  obtain ⟨a, b, c, d, e, f, i, j, k, l, m, n, o, p, q, s, rfl⟩ := WF_cells g h
  rw [rotateOnce_lit]
  simp only [List.flatten, List.append_nil, List.mem_append, List.mem_cons,
    List.not_mem_nil, or_false]
  tauto

theorem rotateN_flatten_zero (g : Grid) (h : WF g) (t : Nat) :
    0 ∈ (rotateN g t).flatten ↔ 0 ∈ g.flatten := by
  induction t generalizing g with
  | zero => exact Iff.rfl
  | succ t ih =>
    show 0 ∈ (rotateN (rotateOnce g) t).flatten ↔ _
    rw [ih (rotateOnce g) (rotateOnce_WF g), rotateOnce_flatten_zero g h]

/-! ### Grid-level lemmas -/

theorem map_eq_self_of_forall {α : Type} (f : α → α) (l : List α)
    (h : ∀ x ∈ l, f x = x) : l.map f = l := by
  induction l with
  | nil => rfl
  | cons a t ih =>
    simp only [List.map_cons, List.cons.injEq]
    exact ⟨h a (by simp), ih fun x hx => h x (List.mem_cons_of_mem a hx)⟩

theorem forall_of_map_eq_self {α : Type} (f : α → α) (l : List α)
    (h : l.map f = l) : ∀ x ∈ l, f x = x := by
  induction l with
  | nil => simp
  | cons a t ih =>
    simp only [List.map_cons, List.cons.injEq] at h
    intro x hx
    rcases List.mem_cons.mp hx with rfl | hx'
    · exact h.1
    · exact ih h.2 x hx'

theorem rotateN_roundtrip (c : Nat) (hc : c < 4) (X : Grid) (h : WF X) :
    rotateN (rotateN X c) ((4 - c) % 4) = X := by
  rw [rotateN_add]
  interval_cases c
  · rfl
  · exact rotateN_four X h
  · exact rotateN_four X h
  · exact rotateN_four X h

theorem rotateN_back (d : Direction) (X : Grid) (h : WF X) :
    rotateN (rotateN X ((4 - rotations d) % 4)) (rotations d) = X := by
  rw [rotateN_add]
  cases d
  · exact rotateN_four X h
  · exact rotateN_four X h
  · rfl
  · exact rotateN_four X h

theorem rotations_lt (d : Direction) : rotations d < 4 := by
  cases d <;> simp [rotations]

theorem moveDet_grid_def (d : Direction) (g : Grid) :
    (moveDet d g).grid = rotateN (newRows d g) ((4 - rotations d) % 4) := rfl

theorem moveDet_moved_def (d : Direction) (g : Grid) :
    (moveDet d g).moved = decide (newRows d g ≠ rotateN g (rotations d)) := rfl

theorem moveDet_vals_def (d : Direction) (g : Grid) :
    (moveDet d g).vals =
      (((rotateN g (rotations d)).map slideRow).map (·.vals)).flatten := rfl

theorem moveDet_score_def (d : Direction) (g : Grid) :
    (moveDet d g).score =
      (((rotateN g (rotations d)).map slideRow).map (·.score)).sum := rfl

theorem newRows_WF (d : Direction) (g : Grid) (h : WF g) : WF (newRows d g) := by
  have hR : WF (rotateN g (rotations d)) := rotateN_WF g h _
  constructor
  · simp [newRows, hR.1]
  · intro row hrow
    simp only [newRows, List.map_map, List.mem_map] at hrow
    obtain ⟨r, hr, rfl⟩ := hrow
    exact slideRow_length r (hR.2 r hr)

theorem newRows_map (d : Direction) (g : Grid) :
    newRows d g = (rotateN g (rotations d)).map (fun r => (slideRow r).list) := by
  simp [newRows, List.map_map, Function.comp]

/-- If the deterministic transform returns the grid unchanged, every rotated
row is a fixed point of `slideRow`, no merge happened, and `moved` is
`false`. -/
theorem moveDet_noop (d : Direction) (g : Grid) (h : WF g)
    (heq : (moveDet d g).grid = g) :
    (moveDet d g).moved = false ∧ (moveDet d g).vals = [] ∧
      (moveDet d g).score = 0 := by
  have hR : WF (rotateN g (rotations d)) := rotateN_WF g h _
  have hX : WF (newRows d g) := newRows_WF d g h
  have hback : newRows d g = rotateN g (rotations d) := by
    have := congrArg (fun z => rotateN z (rotations d)) heq
    simp only [moveDet_grid_def] at this
    rwa [rotateN_back d (newRows d g) hX] at this
  have hrows : ∀ row ∈ rotateN g (rotations d), (slideRow row).list = row := by
    have := hback
    rw [newRows_map] at this
    exact forall_of_map_eq_self _ _ this
  have hfix : ∀ row ∈ rotateN g (rotations d),
      (slideRow row).vals = [] ∧ (slideRow row).score = 0 :=
    fun row hrow => slideRow_fix row (hrows row hrow)
  refine ⟨?_, ?_, ?_⟩
  · rw [moveDet_moved_def, hback]
    simp
  · rw [moveDet_vals_def]
    simp only [List.map_map, List.flatten_eq_nil_iff]
    intro l hl
    simp only [List.mem_map] at hl
    obtain ⟨r, hr, rfl⟩ := hl
    exact (hfix r hr).1
  · rw [moveDet_score_def]
    apply List.sum_eq_zero
    intro x hx
    simp only [List.map_map, List.mem_map] at hx
    obtain ⟨r, hr, rfl⟩ := hx
    exact (hfix r hr).2

theorem emptyCells_mem (g : Grid) (r c : Nat) :
    (r, c) ∈ emptyCells g ↔ r < TILE_COUNT ∧ c < TILE_COUNT ∧ cell g r c = 0 := by
  constructor
  · intro hmem
    rw [emptyCells] at hmem
    obtain ⟨l, hl, hrc⟩ := List.mem_flatten.mp hmem
    obtain ⟨r', hr', rfl⟩ := List.mem_map.mp hl
    obtain ⟨c', hc', hif⟩ := List.mem_filterMap.mp hrc
    rw [List.mem_range] at hr' hc'
    split_ifs at hif with h0
    simp only [Option.some.injEq, Prod.mk.injEq] at hif
    obtain ⟨rfl, rfl⟩ := hif
    exact ⟨hr', hc', h0⟩
  · rintro ⟨hr, hc, h0⟩
    rw [emptyCells]
    refine List.mem_flatten.mpr ⟨_, List.mem_map.mpr ⟨r, List.mem_range.mpr hr, rfl⟩, ?_⟩
    exact List.mem_filterMap.mpr ⟨c, List.mem_range.mpr hc, by rw [if_pos h0]⟩

theorem exists_zero_cell_of_flatten (g : Grid) (h : WF g) (h0 : 0 ∈ g.flatten) :
    ∃ r c, r < TILE_COUNT ∧ c < TILE_COUNT ∧ cell g r c = 0 := by
  obtain ⟨row, hrow, hmem⟩ := List.mem_flatten.mp h0
  obtain ⟨r, hr, hrd⟩ := mem_getD g row [] hrow
  obtain ⟨c, hc, hcd⟩ := mem_getD row 0 0 hmem
  have hcell : cell g r c = 0 := by
    rw [cell, hrd, hcd]
  have hrow4 : row.length = TILE_COUNT := h.2 row hrow
  exact ⟨r, c, by rw [← h.1]; exact hr, by rw [← hrow4]; exact hc, hcell⟩

theorem emptyCells_ne_nil (g : Grid) (h : WF g) (h0 : 0 ∈ g.flatten) :
    emptyCells g ≠ [] := by
  obtain ⟨r, c, hr, hc, hcell⟩ := exists_zero_cell_of_flatten g h h0
  exact List.ne_nil_of_mem ((emptyCells_mem g r c).mpr ⟨hr, hc, hcell⟩)

/-- If the deterministic transform changed the grid, the new grid has an
empty cell. -/
theorem moveDet_moved_zero (d : Direction) (g : Grid) (h : WF g)
    (hm : (moveDet d g).moved = true) : 0 ∈ (moveDet d g).grid.flatten := by
  have hR : WF (rotateN g (rotations d)) := rotateN_WF g h _
  have hX : WF (newRows d g) := newRows_WF d g h
  have hne : newRows d g ≠ rotateN g (rotations d) := by
    rw [moveDet_moved_def] at hm
    exact of_decide_eq_true hm
  have hrow : ∃ row ∈ rotateN g (rotations d), (slideRow row).list ≠ row := by
    by_contra hall
    push_neg at hall
    exact hne (by rw [newRows_map]; exact map_eq_self_of_forall _ _ hall)
  obtain ⟨row, hrow, hne'⟩ := hrow
  have h0 : 0 ∈ (slideRow row).list :=
    slideRow_ne_mem_zero row (hR.2 row hrow) hne'
  have h0X : 0 ∈ (newRows d g).flatten := by
    rw [newRows_map]
    exact List.mem_flatten.mpr ⟨(slideRow row).list, List.mem_map_of_mem _ hrow, h0⟩
  rw [moveDet_grid_def]
  exact (rotateN_flatten_zero (newRows d g) hX _).mpr h0X

theorem moveDet_WF (d : Direction) (g : Grid) (h : WF g) : WF (moveDet d g).grid := by
  rw [moveDet_grid_def]
  exact rotateN_WF _ (newRows_WF d g h) _

/-- If the `moved` flag is `false`, the deterministic transform returned the
grid unchanged. -/
theorem moveDet_unmoved (d : Direction) (g : Grid) (h : WF g)
    (hm : (moveDet d g).moved = false) : (moveDet d g).grid = g := by
  have hX : newRows d g = rotateN g (rotations d) := by
    rw [moveDet_moved_def] at hm
    simpa using of_decide_eq_false hm
  rw [moveDet_grid_def, hX]
  exact rotateN_roundtrip (rotations d) (rotations_lt d) g h

theorem cell_setCell_self (g : Grid) (h : WF g) (r c v : Nat)
    (hr : r < TILE_COUNT) (hc : c < TILE_COUNT) :
    cell (setCell g r c v) r c = v := by
  have hrlen : r < g.length := by rw [h.1]; exact hr
  have hrow : (g.getD r []) ∈ g := getD_mem g r [] hrlen
  have hclen : c < (g.getD r []).length := by rw [h.2 _ hrow]; exact hc
  rw [cell, setCell, getD_set_self _ _ _ _ hrlen, getD_set_self _ _ _ _ hclen]

theorem cell_setCell_ne (g : Grid) (r c v r' c' : Nat)
    (hne : ¬(r' = r ∧ c' = c)) :
    cell (setCell g r c v) r' c' = cell g r' c' := by
  by_cases hrr : r = r'
  · subst hrr
    have hcc : c' ≠ c := fun hc => hne ⟨rfl, hc⟩
    rw [cell, setCell, cell]
    by_cases hrlen : r < g.length
    · rw [getD_set_self _ _ _ _ hrlen, getD_set_ne _ _ _ _ _ (fun hc => hcc hc.symm)]
    · rw [List.set_eq_of_length_le (by omega)]
  · rw [cell, setCell, cell, getD_set_ne _ _ _ _ _ hrr]

/-! ### Claim theorems -/

/-- Claim **C1.** For every row, the slide-and-merge step compacts nonzero values to
the left (the output is a block of nonzero values followed by zero padding)
and merges strictly left-to-right, combining only the first of each adjacent
equal pair, without cascading: the row `[2,2,2,2]` moved left yields
`[4,4,0,0]` (scoring 8), not `[8,0,0,0]` — also at grid level — and a row
with fewer than two nonzero tiles never merges. -/
theorem C1_row_slide_merge :
    (∀ row : List Nat, ∃ m k, (slideRow row).list = m ++ List.replicate k 0 ∧
      ∀ x ∈ m, x ≠ 0)
    ∧ ((slideRow [2, 2, 2, 2]).list = [4, 4, 0, 0]
        ∧ (slideRow [2, 2, 2, 2]).score = 8
        ∧ (slideRow [2, 2, 2, 2]).list ≠ [8, 0, 0, 0]
        ∧ (moveDet .left [[2,2,2,2],[0,0,0,0],[0,0,0,0],[0,0,0,0]]).grid
            = [[4,4,0,0],[0,0,0,0],[0,0,0,0],[0,0,0,0]])
    ∧ (∀ row : List Nat, (row.filter (fun c => c != 0)).length ≤ 1 →
        (slideRow row).vals = [] ∧ (slideRow row).score = 0) := by
  refine ⟨?_, by decide, ?_⟩
  · intro row
    exact ⟨(mergeRow (row.filter (fun c => c != 0))).list, _,
      slideRow_list_def row,
      mergeRow_list_nonzero _ (filter_nonzero_mem row)⟩
  · intro row hlen
    have hv : (slideRow row).vals = (mergeRow (row.filter (fun c => c != 0))).vals := rfl
    have hs : (slideRow row).score = (mergeRow (row.filter (fun c => c != 0))).score := rfl
    rcases hnz : row.filter (fun c => c != 0) with _ | ⟨a, _ | ⟨b, t⟩⟩
    · rw [hv, hs, hnz]
      exact ⟨rfl, rfl⟩
    · rw [hv, hs, hnz]
      exact ⟨rfl, rfl⟩
    · rw [hnz] at hlen
      simp at hlen

/-- Witness for C1 at the concrete row `[0, 7, 0, 0]` (one nonzero tile). -/
theorem C1_row_slide_merge_witness :
    (slideRow [0, 7, 0, 0]).vals = [] ∧ (slideRow [0, 7, 0, 0]).score = 0 :=
  C1_row_slide_merge.2.2 [0, 7, 0, 0] (by decide)

/-- Claim **C3 counterexample.** The deterministic slide-and-merge is not
idempotent: moving `[[2,2,4,0],…]` left gives first row `[4,4,0,0]`, and a
second left move merges again, giving `[8,0,0,0]`. -/
theorem C3_counterexample :
    (moveDet .left ((moveDet .left
        [[2,2,4,0],[0,0,0,0],[0,0,0,0],[0,0,0,0]]).grid)).grid
      ≠ (moveDet .left [[2,2,4,0],[0,0,0,0],[0,0,0,0],[0,0,0,0]]).grid := by
  decide

/-- Claim **C3 (amended).** A second application of the deterministic
slide-and-merge with the same direction never moves a tile by compaction: it
changes the grid only by performing further merges, so whenever the second
application scores nothing (performs no merge) the grid is unchanged. -/
theorem C3_second_application (g : Grid) (d : Direction) (h : WF g)
    (h0 : (moveDet d ((moveDet d g).grid)).score = 0) :
    (moveDet d ((moveDet d g).grid)).grid = (moveDet d g).grid := by
  have hX : WF (newRows d g) := newRows_WF d g h
  have hrotg1 : rotateN (moveDet d g).grid (rotations d) = newRows d g := by
    rw [moveDet_grid_def]
    exact rotateN_back d (newRows d g) hX
  have hscore : ∀ x ∈ newRows d g, (slideRow x).score = 0 := by
    intro x hx
    rw [moveDet_score_def, hrotg1] at h0
    have := List.sum_eq_zero_iff.mp h0
    exact this _ (by
      simp only [List.map_map, List.mem_map]
      exact ⟨x, hx, rfl⟩)
  have hfix : ∀ x ∈ newRows d g, (slideRow x).list = x := by
    intro x hx
    rw [newRows_map] at hx
    obtain ⟨row, hrow, rfl⟩ := List.mem_map.mp hx
    apply slideRow_twice row
    apply hscore
    rw [newRows_map]
    exact List.mem_map_of_mem _ hrow
  rw [moveDet_grid_def (g := (moveDet d g).grid), newRows_map, hrotg1,
    map_eq_self_of_forall _ _ hfix, ← moveDet_grid_def]

/-- Witness for C3 (amended) at a concrete grid whose second left move scores
nothing. -/
theorem C3_second_application_witness :
    (moveDet .left ((moveDet .left
        [[2,4,0,0],[0,0,0,0],[0,0,0,0],[0,0,0,0]]).grid)).grid
      = (moveDet .left [[2,4,0,0],[0,0,0,0],[0,0,0,0],[0,0,0,0]]).grid :=
  C3_second_application [[2,4,0,0],[0,0,0,0],[0,0,0,0],[0,0,0,0]] .left
    (by decide) (by decide)

/-- Claim **C5.** Rotating a 4×4 grid 90° `count` times and then `(4 - count) % 4`
more times with the same rotation function returns the original grid, for
`count ∈ {0,1,2,3}`. -/
theorem C5_rotation_roundtrip (g : Grid) (count : Nat) (h : WF g)
    (hc : count < 4) :
    rotateN (rotateN g count) ((4 - count) % 4) = g :=
  rotateN_roundtrip count hc g h

/-- Witness for C5 at a concrete grid and `count = 1`. -/
theorem C5_rotation_roundtrip_witness :
    rotateN (rotateN [[1,2,3,4],[5,6,7,8],[9,10,11,12],[13,14,15,16]] 1)
        ((4 - 1) % 4)
      = [[1,2,3,4],[5,6,7,8],[9,10,11,12],[13,14,15,16]] :=
  C5_rotation_roundtrip [[1,2,3,4],[5,6,7,8],[9,10,11,12],[13,14,15,16]] 1
    (by decide) (by decide)

/-- Claim **C8 counterexample.** A stored best-score string with no parseable
leading integer is parsed by `parseInt` to `NaN` (modelled `none`), not to
`0`: the claimed total coercion to `0` fails on the stored value `"abc"`. -/
theorem C8_counterexample :
    initBestScore (some "abc") = none ∧ initBestScore (some "abc") ≠ some 0 := by
  decide

/-- Claim **C8 (amended).** An absent stored value or the empty string (both falsy
in `stored || '0'`) are coerced to `0`; a non-empty stored string with no
parseable leading integer yields `NaN` (not `0`, nor any integer); a stored
string with a leading integer parses to that integer. -/
theorem C8_best_score_parse :
    initBestScore none = some 0
    ∧ initBestScore (some "") = some 0
    ∧ initBestScore (some "abc") = none
    ∧ initBestScore (some "2048") = some 2048 := by
  decide

/-- Claim **C9 counterexample.** For a non-left direction (here `up`, whose
inverse-rotation count is 3), the merged-cell tagging applies the grid
rotation to the 1-row array `[[r, col]]`; the very first row access
`g[3][0]` is out of bounds, so the lookup errors (a JavaScript `TypeError`)
instead of recording any — even a mis-tagged — coordinate pair. -/
theorem C9_counterexample :
    rotateE [[0, 0]] ((4 - rotations .up) % 4) = Except.error ()
    ∧ ∀ out, rotateE [[0, 0]] ((4 - rotations .up) % 4) ≠ Except.ok out := by
  constructor
  · rfl
  · intro out h
    have h1 : (Except.error () : Except Unit Grid) = Except.ok out :=
      (show rotateE [[0, 0]] ((4 - rotations .up) % 4) = Except.error ()
        from rfl) ▸ h
    exact Except.noConfusion h1

/-- Claim **C9 (amended).** The merged-cell tagging computes the un-rotated
coordinate of a merged tile by applying the 4×4 rotation to the single-row
two-element array `[[r, col]]`.  For direction left (rotation count 0, hence
inverse count 0) the lookup returns the coordinates unchanged, which are the
true positions.  For every other direction the inverse count is positive and
the lookup reads a row index out of the 1-row array's bounds, raising a
`TypeError` that aborts the move, so no merged-cell coordinate is recorded at
all. -/
theorem C9_merge_tagging (r col : Nat) :
    rotateE [[r, col]] ((4 - rotations .left) % 4) = Except.ok [[r, col]]
    ∧ (∀ d : Direction, d ≠ .left → 0 < (4 - rotations d) % 4)
    ∧ (∀ t, 0 < t → rotateE [[r, col]] t = Except.error ()) := by
  refine ⟨rfl, ?_, ?_⟩
  · intro d hd
    cases d
    · decide
    · decide
    · exact absurd rfl hd
    · decide
  · intro t ht
    match t, ht with
    | t' + 1, _ => rfl

/-- Witness for C9 (amended) at `r = 0`, `col = 1`, direction `up`
(inverse-rotation count 3). -/
theorem C9_merge_tagging_witness :
    rotateE [[0, 1]] 3 = Except.error () :=
  (C9_merge_tagging 0 1).2.2 3 (by decide)

/-- Claim **C2 counterexample.** On a left move of `[[2048,2048,0,0],…]` a merge
produces the value 4096 ≥ 2048, yet the completed move leaves the win flag
`false`: the code tests `newValue === 2048`, not `≥ 2048`. -/
theorem C2_counterexample :
    4096 ∈ (moveDet .left [[2048,2048,0,0],[0,0,0,0],[0,0,0,0],[0,0,0,0]]).vals
    ∧ 2048 ≤ 4096
    ∧ moveFull .left
        ⟨[[2048,2048,0,0],[0,0,0,0],[0,0,0,0],[0,0,0,0]], 0, 0, false, false⟩
        0 true
      = Except.ok
          ⟨[[4096,2,0,0],[0,0,0,0],[0,0,0,0],[0,0,0,0]], 4096, 4096,
            false, false⟩ := by
  decide

/-- Claim **C2 (amended).** On an accepted left move the win flag is set exactly
when some merge during the move produces the value exactly 2048 (the flag is
sticky: it stays set if it already was); a merge producing a value strictly
greater than 2048 does not set it. -/
theorem C2_win_flag (st : GameState) (k : Nat) (two : Bool)
    (hguard : (st.isGameOver && !st.isWin) = false) :
    ∃ st', moveFull .left st k two = Except.ok st'
      ∧ st'.isWin = (st.isWin || (moveDet .left st.grid).vals.contains 2048) := by
  simp only [moveFull, hguard, Bool.false_eq_true, if_false]
  rw [if_neg (fun hcon => hcon.1 rfl)]
  split
  · exact ⟨_, rfl, rfl⟩
  · exact ⟨_, rfl, rfl⟩

/-- Witness for C2 (amended): a left move merging two 1024 tiles into exactly
2048 sets the win flag. -/
theorem C2_win_flag_witness :
    ∃ st', moveFull .left
        ⟨[[1024,1024,0,0],[0,0,0,0],[0,0,0,0],[0,0,0,0]], 0, 0, false, false⟩
        0 true = Except.ok st'
      ∧ st'.isWin = (false || (moveDet .left
          [[1024,1024,0,0],[0,0,0,0],[0,0,0,0],[0,0,0,0]]).vals.contains 2048) :=
  C2_win_flag
    ⟨[[1024,1024,0,0],[0,0,0,0],[0,0,0,0],[0,0,0,0]], 0, 0, false, false⟩
    0 true (by decide)

/-- Claim **C4.** If the slide-and-merge step leaves every cell unchanged, the move
is a no-op: `moved` stays `false`, so no tile is spawned, the score, best
score, win flag and game-over status are untouched, and the state (grid
included) after the move equals the state before it. -/
theorem C4_noop (d : Direction) (st : GameState) (k : Nat) (two : Bool)
    (h : WF st.grid) (heq : (moveDet d st.grid).grid = st.grid) :
    moveFull d st k two = Except.ok st := by
  obtain ⟨hmoved, hvals, hscore⟩ := moveDet_noop d st.grid h heq
  cases st with
  | mk grid score best isWin isGameOver =>
    simp only [moveFull, hvals, hmoved, Bool.false_eq_true, if_false]
    split
    · rfl
    · rw [if_neg (fun hcon => hcon.2 rfl)]
      simp

/-- Witness for C4: a left move on a fully packed grid with no mergeable
pair in any row is a complete no-op. -/
theorem C4_noop_witness :
    moveFull .left
      ⟨[[2,4,8,16],[4,8,16,32],[8,16,32,64],[16,32,64,128]], 7, 9, false, false⟩
      3 true
    = Except.ok
        ⟨[[2,4,8,16],[4,8,16,32],[8,16,32,64],[16,32,64,128]], 7, 9,
          false, false⟩ :=
  C4_noop .left
    ⟨[[2,4,8,16],[4,8,16,32],[8,16,32,64],[16,32,64,128]], 7, 9, false, false⟩
    3 true (by decide) (by decide)

/-- Claim **C6.** `checkGameOver` classifies a grid as lost iff it has no empty
cell and no two vertically- or horizontally-adjacent equal cells; and
changing any one cell of a lost grid so that an adjacent equal pair appears
makes the check classify the new grid as not lost. -/
theorem C6_loss_check :
    (∀ g : Grid, gameOverCheck g = true ↔
        ((∀ r, r < TILE_COUNT → ∀ c, c < TILE_COUNT → cell g r c ≠ 0)
          ∧ (∀ r c, r + 1 < TILE_COUNT → c < TILE_COUNT →
              cell g r c ≠ cell g (r + 1) c)
          ∧ (∀ r c, r < TILE_COUNT → c + 1 < TILE_COUNT →
              cell g r c ≠ cell g r (c + 1))))
    ∧ (∀ g r c v, gameOverCheck g = true →
        (∃ r' c',
          (r' + 1 < TILE_COUNT ∧ c' < TILE_COUNT ∧
            cell (setCell g r c v) r' c' = cell (setCell g r c v) (r' + 1) c')
          ∨ (r' < TILE_COUNT ∧ c' + 1 < TILE_COUNT ∧
            cell (setCell g r c v) r' c' = cell (setCell g r c v) r' (c' + 1))) →
        gameOverCheck (setCell g r c v) = false) := by
  have key : ∀ g : Grid, gameOverCheck g = true ↔
      ((∀ r, r < TILE_COUNT → ∀ c, c < TILE_COUNT → cell g r c ≠ 0)
        ∧ (∀ r c, r + 1 < TILE_COUNT → c < TILE_COUNT →
            cell g r c ≠ cell g (r + 1) c)
        ∧ (∀ r c, r < TILE_COUNT → c + 1 < TILE_COUNT →
            cell g r c ≠ cell g r (c + 1))) := by
    intro g
    rw [gameOverCheck]
    simp only [List.all_eq_true, List.mem_range, Bool.and_eq_true, bne_iff_ne, ne_eq,
      Bool.or_eq_true, Bool.not_eq_true', decide_eq_false_iff_not]
    constructor
    · intro hall
      refine ⟨fun r hr c hc => (hall r hr c hc).1.1, fun r c hr hc => ?_,
        fun r c hr hc => ?_⟩
      · rcases (hall r (by omega) c hc).1.2 with hlt | hne
        · exact absurd (by omega : r < TILE_COUNT - 1) hlt
        · exact hne
      · rcases (hall r hr c (by omega)).2 with hlt | hne
        · exact absurd (by omega : c < TILE_COUNT - 1) hlt
        · exact hne
    · rintro ⟨h1, h2, h3⟩ r hr c hc
      refine ⟨⟨h1 r hr c hc, ?_⟩, ?_⟩
      · by_cases hr3 : r < TILE_COUNT - 1
        · exact Or.inr (h2 r c (by omega) hc)
        · exact Or.inl hr3
      · by_cases hc3 : c < TILE_COUNT - 1
        · exact Or.inr (h3 r c hr (by omega))
        · exact Or.inl hc3
  refine ⟨key, ?_⟩
  rintro g r c v _hlost ⟨r', c', hpair⟩
  by_contra hne
  have htrue : gameOverCheck (setCell g r c v) = true := by
    rcases Bool.eq_false_or_eq_true (gameOverCheck (setCell g r c v)) with hT | hF
    · exact hT
    · exact absurd hF hne
  obtain ⟨hz, hd, hr2⟩ := (key _).mp htrue
  rcases hpair with ⟨ha, hb, hcc⟩ | ⟨ha, hb, hcc⟩
  · exact hd r' c' ha hb hcc
  · exact hr2 r' c' ha hb hcc

/-- Witness for C6: a checkerboard grid is lost; overwriting its corner with
the value of its right neighbour creates an adjacent pair and the check no
longer reports lost. -/
theorem C6_loss_check_witness :
    gameOverCheck (setCell [[2,4,2,4],[4,2,4,2],[2,4,2,4],[4,2,4,2]] 0 0 4)
      = false :=
  C6_loss_check.2 [[2,4,2,4],[4,2,4,2],[2,4,2,4],[4,2,4,2]] 0 0 4 (by decide)
    ⟨0, 0, Or.inr ⟨by decide, by decide, by decide⟩⟩

/-- Claim **C10.** If the deterministic slide-and-merge changes the grid, the
resulting grid (before the random spawn) contains an empty cell, so the
spawn step's empty-cell list is non-empty and its no-empty-cell branch is
unreachable after a changing move. -/
theorem C10_spawn_reachable (g : Grid) (d : Direction) (h : WF g)
    (hch : (moveDet d g).grid ≠ g) :
    (∃ r c, r < TILE_COUNT ∧ c < TILE_COUNT ∧ cell (moveDet d g).grid r c = 0)
    ∧ emptyCells (moveDet d g).grid ≠ [] := by
  have hm : (moveDet d g).moved = true := by
    by_contra hm
    exact hch (moveDet_unmoved d g h (Bool.not_eq_true _ ▸ hm))
  have h0 := moveDet_moved_zero d g h hm
  have hWF := moveDet_WF d g h
  exact ⟨exists_zero_cell_of_flatten _ hWF h0, emptyCells_ne_nil _ hWF h0⟩

/-- Witness for C10 at a concrete changing left move. -/
theorem C10_spawn_reachable_witness :
    (∃ r c, r < TILE_COUNT ∧ c < TILE_COUNT ∧
      cell (moveDet .left [[0,2,0,0],[0,0,0,0],[0,0,0,0],[0,0,0,0]]).grid r c = 0)
    ∧ emptyCells (moveDet .left [[0,2,0,0],[0,0,0,0],[0,0,0,0],[0,0,0,0]]).grid
        ≠ [] :=
  C10_spawn_reachable [[0,2,0,0],[0,0,0,0],[0,0,0,0],[0,0,0,0]] .left
    (by decide) (by decide)

/-- Claim **C7.** Every completed move that changes the grid spawns exactly one
tile: one cell that was empty after the slide-and-merge step becomes 2 (when
the value draw is below 0.9) or 4 (otherwise), every other cell keeps its
post-slide value, and the score grows by exactly the sum of the merged
values.  `k` is the uniform random index into the empty-cell list and `two`
the value draw. -/
theorem C7_spawn (d : Direction) (st st' : GameState) (k : Nat) (two : Bool)
    (h : WF st.grid)
    (hk : k < (emptyCells (moveDet d st.grid).grid).length)
    (hok : moveFull d st k two = Except.ok st')
    (hch : st'.grid ≠ st.grid) :
    ∃ r c, r < TILE_COUNT ∧ c < TILE_COUNT
      ∧ cell (moveDet d st.grid).grid r c = 0
      ∧ cell st'.grid r c = (if two then 2 else 4)
      ∧ (∀ r' c', ¬(r' = r ∧ c' = c) →
          cell st'.grid r' c' = cell (moveDet d st.grid).grid r' c')
      ∧ st'.score = st.score + (moveDet d st.grid).score := by
  have hWFdet := moveDet_WF d st.grid h
  simp only [moveFull] at hok
  split at hok
  · exact absurd (congrArg GameState.grid (Except.ok.inj hok)).symm hch
  · split at hok
    · exact Except.noConfusion hok
    · split at hok
      · replace hok := (Except.ok.inj hok).symm
        have hgrid : st'.grid = addRandomTile (moveDet d st.grid).grid k two := by
          rw [hok]
        have hscore : st'.score = st.score + (moveDet d st.grid).score := by
          rw [hok]
        have hpos : 0 < (emptyCells (moveDet d st.grid).grid).length := by omega
        rw [addRandomTile, if_pos hpos] at hgrid
        set p := (emptyCells (moveDet d st.grid).grid).getD k (0, 0) with hp
        have hpmem : p ∈ emptyCells (moveDet d st.grid).grid :=
          getD_mem _ k (0, 0) hk
        have hpc : (p.1, p.2) ∈ emptyCells (moveDet d st.grid).grid := by
          rw [Prod.mk.eta]
          exact hpmem
        obtain ⟨hr, hc, hzero⟩ := (emptyCells_mem _ p.1 p.2).mp hpc
        refine ⟨p.1, p.2, hr, hc, hzero, ?_, ?_, hscore⟩
        · rw [hgrid]
          exact cell_setCell_self _ hWFdet _ _ _ hr hc
        · intro r' c' hne
          rw [hgrid]
          exact cell_setCell_ne _ _ _ _ _ _ hne
      · replace hok := (Except.ok.inj hok).symm
        exact absurd (by rw [hok]) hch

/-- Witness for C7 at a concrete left move: the slide turns `[[0,2,0,0],…]`
into `[[2,0,0,0],…]` and the spawn with `k = 0`, `two = true` fills cell
`(0,1)` with a 2. -/
theorem C7_spawn_witness :
    ∃ r c, r < TILE_COUNT ∧ c < TILE_COUNT
      ∧ cell (moveDet .left [[0,2,0,0],[0,0,0,0],[0,0,0,0],[0,0,0,0]]).grid
          r c = 0
      ∧ cell [[2,2,0,0],[0,0,0,0],[0,0,0,0],[0,0,0,0]] r c
          = (if true then 2 else 4)
      ∧ (∀ r' c', ¬(r' = r ∧ c' = c) →
          cell [[2,2,0,0],[0,0,0,0],[0,0,0,0],[0,0,0,0]] r' c'
          = cell (moveDet .left
              [[0,2,0,0],[0,0,0,0],[0,0,0,0],[0,0,0,0]]).grid r' c')
      ∧ (5 : Nat) = 5
          + (moveDet .left [[0,2,0,0],[0,0,0,0],[0,0,0,0],[0,0,0,0]]).score :=
  C7_spawn .left
    ⟨[[0,2,0,0],[0,0,0,0],[0,0,0,0],[0,0,0,0]], 5, 9, false, false⟩
    ⟨[[2,2,0,0],[0,0,0,0],[0,0,0,0],[0,0,0,0]], 5, 9, false, false⟩
    0 true (by decide) (by decide) (by decide) (by decide)

end Game2048
